import Mathlib

/-!
# Verification of the lyftr-backend webhook service

A shallow embedding, in Lean, of the core of the `lyftr-backend`
repository: the webhook ingest handler with HMAC signature checking and
payload validation (`app/main.py`), the idempotent insert primitive over
the sqlite `messages` table (`app/storage.py`), the filtered / paginated
`GET /messages` read path, and the `GET /stats` aggregation.

The sqlite table is embedded as a Lean list of rows; the PRIMARY KEY
constraint on `message_id` is embedded as the membership test that decides
whether an `INSERT` raises `IntegrityError`.  Text comparison (`ts >= ?`,
`ORDER BY`) follows sqlite's default BINARY collation, i.e. byte order on
UTF-8, which coincides with code-point order; `LIKE` follows sqlite's
default semantics (ASCII-case-insensitive, `%` and `_` wildcards).
-/

namespace Lyftr

/-- Byte order on UTF-8 text, as sqlite's default BINARY collation compares
`TEXT` values with `memcmp`.  UTF-8 byte order coincides with code-point
order, so we compare `Char`s directly: `lexLe a b` is true iff `a ≤ b`
lexicographically. -/
def lexLe : List Char → List Char → Bool
  | [], _ => true
  | _ :: _, [] => false
  | a :: as, b :: bs =>
    if a < b then true
    else if b < a then false
    else lexLe as bs

theorem lexLe_refl : ∀ a : List Char, lexLe a a = true := by
  intro a
  induction a with
  | nil => rfl
  | cons x xs ih => simp [lexLe, ih]

theorem lexLe_total : ∀ a b : List Char, lexLe a b = true ∨ lexLe b a = true := by
  intro a
  induction a with
  | nil => intro b; left; rfl
  | cons x xs ih =>
    intro b
    cases b with
    | nil => right; rfl
    | cons y ys =>
      rcases lt_trichotomy x y with h | h | h
      · left; simp [lexLe, h]
      · subst h
        rcases ih ys with h' | h'
        · left; simp [lexLe, h']
        · right; simp [lexLe, h']
      · right; simp [lexLe, h]

theorem lexLe_trans : ∀ a b c : List Char,
    lexLe a b = true → lexLe b c = true → lexLe a c = true := by
  intro a
  induction a with
  | nil => intro b c _ _; rfl
  | cons x xs ih =>
    intro b c hab hbc
    cases b with
    | nil => simp [lexLe] at hab
    | cons y ys =>
      cases c with
      | nil => simp [lexLe] at hbc
      | cons z zs =>
        simp only [lexLe] at hab hbc ⊢
        rcases lt_trichotomy x y with hxy | hxy | hxy
        · rcases lt_trichotomy y z with hyz | hyz | hyz
          · simp [lt_trans hxy hyz]
          · subst hyz; simp [hxy]
          · simp [hyz, not_lt_of_lt hyz] at hbc
        · subst hxy
          rcases lt_trichotomy x z with hyz | hyz | hyz
          · simp [hyz]
          · subst hyz
            simp only [lt_irrefl, if_false] at hab hbc ⊢
            exact ih _ _ hab hbc
          · simp [hyz, not_lt_of_lt hyz] at hbc
        · simp [hxy, not_lt_of_lt hxy] at hab

theorem lexLe_antisymm : ∀ a b : List Char,
    lexLe a b = true → lexLe b a = true → a = b := by
  intro a
  induction a with
  | nil =>
    intro b _ hba
    cases b with
    | nil => rfl
    | cons y ys => simp [lexLe] at hba
  | cons x xs ih =>
    intro b hab hba
    cases b with
    | nil => simp [lexLe] at hab
    | cons y ys =>
      simp only [lexLe] at hab hba
      rcases lt_trichotomy x y with hxy | hxy | hxy
      · simp [hxy, not_lt_of_lt hxy] at hba
      · subst hxy
        simp only [lt_irrefl, if_false] at hab hba
        rw [ih ys hab hba]
      · simp [hxy, not_lt_of_lt hxy] at hab

/-- sqlite text comparison lifted to `String`. -/
def strLe (a b : String) : Bool := lexLe a.data b.data

theorem strLe_refl (a : String) : strLe a a = true := lexLe_refl a.data

theorem strLe_total (a b : String) : strLe a b = true ∨ strLe b a = true :=
  lexLe_total a.data b.data

theorem strLe_trans {a b c : String} (h₁ : strLe a b = true) (h₂ : strLe b c = true) :
    strLe a c = true := lexLe_trans a.data b.data c.data h₁ h₂

theorem strLe_antisymm {a b : String} (h₁ : strLe a b = true) (h₂ : strLe b a = true) :
    a = b := String.ext (lexLe_antisymm a.data b.data h₁ h₂)

/-! ## Data model

One sqlite table `messages` (`app/storage.py`, `init_db`):
`message_id TEXT PRIMARY KEY, from_msisdn, to_msisdn, ts TEXT NOT NULL,
text TEXT, created_at TEXT NOT NULL`. -/

/-- A row of the `messages` table. -/
structure Row where
  message_id : String
  from_msisdn : String
  to_msisdn : String
  ts : String
  text : Option String
  created_at : String
deriving DecidableEq, Repr

/-- The payload of `POST /webhook` after JSON decoding and pydantic type
coercion, before the field validators run (`WebhookMessage` in
`app/main.py`; the JSON keys `from` and `to` appear as the attributes `from_` and `to_`, `from` and `to` being reserved words here as `from` is in Python). -/
structure RawPayload where
  message_id : String
  from_ : String
  to_ : String
  ts : String
  text : Option String
deriving DecidableEq, Repr

/-! ## Field validators (`WebhookMessage` validators in `app/main.py`) -/

/-- `id_not_empty`: `if not v: raise` — a `str` is falsy iff empty. -/
def id_not_empty (v : String) : Bool := !(v == "")

/-- Partial model of Python's `str.isdigit` on a single character.
`str.isdigit` is true for characters with Unicode `Numeric_Type` `Digit`
or `Decimal`, which is strictly larger than ASCII `[0-9]`.  We list the
ASCII digits plus representative non-ASCII characters for which Python's
`isdigit` returns `True`: the superscripts ¹ ² ³ (U+00B9, U+00B2, U+00B3),
the Arabic-Indic digits U+0660–U+0669, the extended Arabic-Indic digits
U+06F0–U+06F9 and the Devanagari digits U+0966–U+096F.  Every listed
character is genuinely `isdigit`-true in Python; characters outside the
list are treated as non-digits, which is all this development relies on. -/
def pyIsDigitChar (c : Char) : Bool :=
  ('0' ≤ c && c ≤ '9')
  || c == '¹' || c == '²' || c == '³'
  || ('٠' ≤ c && c ≤ '٩')
  || ('۰' ≤ c && c ≤ '۹')
  || ('०' ≤ c && c ≤ '९')

/-- `validate_e164`: `if not v.startswith("+") or not v[1:].isdigit(): raise`.
Note `"".isdigit()` is `False`, so `"+"` alone is rejected. -/
def validate_e164 (v : String) : Bool :=
  match v.data with
  | '+' :: rest => !rest.isEmpty && rest.all pyIsDigitChar
  | _ => false

/-- `validate_ts`: `if not v.endswith("Z"): raise`.  For the one-character
suffix `"Z"` this is exactly "the last character is `'Z'`". -/
def validate_ts (v : String) : Bool := v.data.getLast? == some 'Z'

/-- `validate_text`: `if v is not None and len(v) > 4096: raise`.
Python `len` on `str` counts code points, as does `String.length`. -/
def validate_text (v : Option String) : Bool :=
  match v with
  | none => true
  | some t => !(4096 < t.length)

/-- All `WebhookMessage` validators together: pydantic accepts the payload
iff every field validator passes. -/
def payload_valid (p : RawPayload) : Bool :=
  id_not_empty p.message_id && validate_e164 p.from_ && validate_e164 p.to_
    && validate_ts p.ts && validate_text p.text

/-! ## Persistence: `insert_message` (`app/storage.py`) -/

/-- Embeds `insert_message`.  The sqlite `PRIMARY KEY` constraint on
`message_id` is embedded by the membership test: the `INSERT` raises
`IntegrityError` exactly when a row with the same `message_id` already
exists, which the function catches and turns into `false`; otherwise the
row is appended and the function returns `true`.  `created_at`
(`datetime.utcnow().isoformat() + "Z"`, a side input) is passed as `now`. -/
def insert_message (store : List Row) (m : RawPayload) (now : String) :
    Bool × List Row :=
  if store.any (fun r => r.message_id == m.message_id) then (false, store)
  else (true, store ++ [⟨m.message_id, m.from_, m.to_, m.ts, m.text, now⟩])

/-! ## Ingest handler: `POST /webhook` (`app/main.py`) -/

/-- An HTTP response of the webhook endpoint: `ok result` is
`200 {"status":"ok","result":result}`, `err status detail` is an error
response with the given status code and detail string. -/
inductive Resp where
  | ok (result : String)
  | err (status : Nat) (detail : String)
deriving DecidableEq, Repr

/-- `PyUnicode_IS_ASCII`: every code point below 128.
`hmac.compare_digest` on `str` arguments requires both to be ASCII and
raises `TypeError` otherwise (per its documentation: "either `str`
(ASCII only), or a bytes-like object"). -/
def pyAsciiStr (s : String) : Bool := s.data.all (fun c => c.toNat < 128)

/-- Embeds the `webhook` handler of `app/main.py`.

* `mac secret body` stands for
  `hmac.new(secret, body, sha256).hexdigest()`; the handler only consumes
  the digest through string comparison, so every claim is proved for an
  arbitrary `mac`.
* `parse body` stands for JSON decoding plus pydantic type coercion of
  `WebhookMessage.parse_raw`; `none` is a decode failure.  The field
  validators themselves are embedded explicitly (`payload_valid`).
* `sig` is `request.headers.get("X-Signature")`; `if not signature` is
  true both for a missing header and for an empty value.
* `hmac.compare_digest` on two `str`s raises `TypeError` (an unhandled
  exception, hence a 500 "Internal Server Error" response) unless both are
  ASCII; otherwise it is equality.
* the 422 detail `str(e)` aggregates pydantic's error messages; its exact
  text is not load-bearing for any claim and is embedded as the constant
  `"validation error"`.
* `now` is the `created_at` side input of `insert_message`.

Returns the response together with the store after the request. -/
def webhook (mac : String → String → String) (parse : String → Option RawPayload)
    (secret : String) (sig : Option String) (body : String) (now : String)
    (store : List Row) : Resp × List Row :=
  match sig with
  | none => (Resp.err 401 "invalid signature", store)
  | some s =>
    if s = "" then (Resp.err 401 "invalid signature", store)
    else
      let computed := mac secret body
      if pyAsciiStr s && pyAsciiStr computed then
        if s = computed then
          match parse body with
          | none => (Resp.err 422 "validation error", store)
          | some p =>
            if payload_valid p then
              let res := insert_message store p now
              (Resp.ok (if res.1 then "created" else "duplicate"), res.2)
            else (Resp.err 422 "validation error", store)
        else (Resp.err 401 "invalid signature", store)
      else (Resp.err 500 "Internal Server Error", store)

/-! ## Read path: `GET /messages` (`app/main.py`) -/

/-- ASCII lower-casing, the case folding sqlite's default `LIKE` applies
(`PRAGMA case_sensitive_like` is off by default and folds `A`–`Z` only). -/
def lowerAscii (c : Char) : Char :=
  if 'A' ≤ c && c ≤ 'Z' then Char.ofNat (c.toNat + 32) else c

/-- sqlite `LIKE` pattern matching, with explicit fuel so that the
recursion is structural (every step consumes fuel; each call shortens
`pattern ++ s`, so `likeMatch` below always supplies enough fuel and the
`0` case is never reached). -/
def likeMatchFuel : Nat → List Char → List Char → Bool
  | 0, _, _ => false
  | _ + 1, [], s => s.isEmpty
  | fuel + 1, '%' :: ps, [] => likeMatchFuel fuel ps []
  | fuel + 1, '%' :: ps, c :: s =>
    likeMatchFuel fuel ps (c :: s) || likeMatchFuel fuel ('%' :: ps) s
  | _ + 1, '_' :: _, [] => false
  | fuel + 1, '_' :: ps, _ :: s => likeMatchFuel fuel ps s
  | _ + 1, _ :: _, [] => false
  | fuel + 1, p :: ps, c :: s => (lowerAscii p == lowerAscii c) && likeMatchFuel fuel ps s

/-- sqlite `LIKE` pattern matching: `%` matches any sequence of characters,
`_` matches exactly one character, and any other pattern character matches
ASCII-case-insensitively.  `likeMatch pat s` is true iff `s LIKE pat`. -/
def likeMatch (pat s : List Char) : Bool :=
  likeMatchFuel (pat.length + s.length + 1) pat s

/-- Python truthiness of an `Optional[str]` query parameter: `if from_:`
skips the filter both when the parameter is absent (`None`) and when it is
the empty string.  Returns the filter value when it is active. -/
def optActive : Option String → Option String
  | none => none
  | some s => if s = "" then none else some s

/-- The `WHERE` clause built by `get_messages`: conjunction of
`from_msisdn = ?` (exact), `ts >= ?` (BINARY collation, i.e. `strLe`), and
`text LIKE '%' + q + '%'`.  A `NULL` `text` never satisfies `LIKE` (the SQL
result is `NULL`, which `WHERE` treats as false). -/
def rowMatches (from_ since q : Option String) (r : Row) : Bool :=
  (match optActive from_ with
   | none => true
   | some f => r.from_msisdn == f)
  && (match optActive since with
      | none => true
      | some s => strLe s r.ts)
  && (match optActive q with
      | none => true
      | some qs =>
        match r.text with
        | none => false
        | some t => likeMatch ('%' :: (qs.data ++ ['%'])) t.data)

/-- `ORDER BY ts ASC, message_id ASC` as a relation on rows: lexicographic
on the pair `(ts, message_id)` under BINARY collation. -/
def rowLe (a b : Row) : Bool :=
  if a.ts = b.ts then strLe a.message_id b.message_id else strLe a.ts b.ts

/-- `rowLe` as a decidable `Prop` relation, for `List.insertionSort`. -/
def RowLeP : Row → Row → Prop := fun a b => rowLe a b = true

instance : DecidableRel RowLeP :=
  fun a b => inferInstanceAs (Decidable (rowLe a b = true))

instance : IsTotal Row RowLeP where
  total a b := by
    unfold RowLeP rowLe
    by_cases h : a.ts = b.ts
    · simp [h]; exact strLe_total _ _
    · simp [h, Ne.symm h]; exact strLe_total _ _

instance : IsTrans Row RowLeP where
  trans a b c hab hbc := by
    unfold RowLeP rowLe at hab hbc ⊢
    by_cases h₁ : a.ts = b.ts <;> by_cases h₂ : b.ts = c.ts
    · rw [if_pos h₁] at hab
      rw [if_pos h₂] at hbc
      rw [if_pos (h₁.trans h₂)]
      exact strLe_trans hab hbc
    · have hac : a.ts ≠ c.ts := fun h => h₂ (h₁.symm.trans h)
      rw [if_neg h₂] at hbc
      rw [if_neg hac, h₁]
      exact hbc
    · have hac : a.ts ≠ c.ts := fun h => h₁ (h.trans h₂.symm)
      rw [if_neg h₁] at hab
      rw [if_neg hac, ← h₂]
      exact hab
    · rw [if_neg h₁] at hab
      rw [if_neg h₂] at hbc
      have hac : a.ts ≠ c.ts := by
        intro h
        exact h₁ (strLe_antisymm hab (h ▸ hbc))
      rw [if_neg hac]
      exact strLe_trans hab hbc

/-- One element of the `data` array of `GET /messages`: the `SELECT`
projects `message_id, from_msisdn AS "from", to_msisdn AS "to", ts, text`
(no `created_at`). -/
structure MsgOut where
  message_id : String
  from_msisdn : String
  to_msisdn : String
  ts : String
  text : Option String
deriving DecidableEq, Repr

/-- The projection performed by the `SELECT` column list. -/
def projRow (r : Row) : MsgOut :=
  ⟨r.message_id, r.from_msisdn, r.to_msisdn, r.ts, r.text⟩

/-- The `WHERE` clause read back on a returned (projected) row; the
projection keeps every column the filters consult, so this is `rowMatches`
on the projected fields. -/
def outMatches (from_ since q : Option String) (m : MsgOut) : Bool :=
  (match optActive from_ with
   | none => true
   | some f => m.from_msisdn == f)
  && (match optActive since with
      | none => true
      | some s => strLe s m.ts)
  && (match optActive q with
      | none => true
      | some qs =>
        match m.text with
        | none => false
        | some t => likeMatch ('%' :: (qs.data ++ ['%'])) t.data)

/-- The order `(ts ASC, message_id ASC)` read back on a returned
(projected) row. -/
def outLe (a b : MsgOut) : Bool :=
  if a.ts = b.ts then strLe a.message_id b.message_id else strLe a.ts b.ts

instance {ε α : Type} [DecidableEq ε] [DecidableEq α] : DecidableEq (Except ε α) :=
  fun a b =>
    match a, b with
    | .error e, .error f =>
      if h : e = f then isTrue (by rw [h]) else isFalse (fun hh => by cases hh; exact h rfl)
    | .ok x, .ok y =>
      if h : x = y then isTrue (by rw [h]) else isFalse (fun hh => by cases hh; exact h rfl)
    | .error _, .ok _ => isFalse (fun hh => by cases hh)
    | .ok _, .error _ => isFalse (fun hh => by cases hh)

/-- The response envelope of `GET /messages`. -/
structure MessagesResponse where
  data : List MsgOut
  total : Nat
  limit : Int
  offset : Int
deriving DecidableEq, Repr

/-- Embeds `get_messages`.  FastAPI validates the query parameters
(`limit: int = Query(50, ge=1, le=100)`, `offset: int = Query(0, ge=0)`)
before the handler body runs and rejects out-of-range values with a
validation error (it never clamps); this gate is the outer `if`.  The
handler then counts the rows matching the `WHERE` clause (`total`,
independent of pagination) and fetches the matching rows ordered by
`(ts, message_id)` with `LIMIT ? OFFSET ?`. -/
def get_messages (store : List Row) (limit offset : Int)
    (from_ since q : Option String) : Except String MessagesResponse :=
  if limit < 1 ∨ 100 < limit ∨ offset < 0 then
    Except.error "validation error"
  else
    let matched := store.filter (rowMatches from_ since q)
    let total := matched.length
    let sorted := List.insertionSort RowLeP matched
    let page := (sorted.drop offset.toNat).take limit.toNat
    Except.ok ⟨page.map projRow, total, limit, offset⟩

/-! ## Aggregation: `GET /stats` (`app/main.py`) -/

/-- `ORDER BY count DESC` over the `GROUP BY from_msisdn` output, as a
relation on `(sender, count)` pairs: count descending; for equal counts
the SQL imposes no order and sqlite emits the groups deterministically,
here embedded as ascending sender (the order in which `GROUP BY` produces
the groups). -/
def scLe (a b : String × Nat) : Bool :=
  if a.2 = b.2 then strLe a.1 b.1 else decide (b.2 < a.2)

/-- `scLe` as a decidable `Prop` relation, for `List.insertionSort`. -/
def ScLeP : String × Nat → String × Nat → Prop := fun a b => scLe a b = true

instance : DecidableRel ScLeP :=
  fun a b => inferInstanceAs (Decidable (scLe a b = true))

instance : IsTotal (String × Nat) ScLeP where
  total a b := by
    unfold ScLeP scLe
    by_cases h : a.2 = b.2
    · simp [h]; exact strLe_total _ _
    · simp only [if_neg h, if_neg (Ne.symm h), decide_eq_true_eq]; omega

instance : IsTrans (String × Nat) ScLeP where
  trans a b c hab hbc := by
    unfold ScLeP scLe at hab hbc ⊢
    by_cases h₁ : a.2 = b.2 <;> by_cases h₂ : b.2 = c.2
    · rw [if_pos h₁] at hab
      rw [if_pos h₂] at hbc
      rw [if_pos (h₁.trans h₂)]
      exact strLe_trans hab hbc
    · have hac : a.2 ≠ c.2 := fun h => h₂ (h₁.symm.trans h)
      rw [if_neg h₂] at hbc
      rw [if_neg hac, h₁]
      exact hbc
    · have hac : a.2 ≠ c.2 := fun h => h₁ (h.trans h₂.symm)
      rw [if_neg h₁] at hab
      rw [if_neg hac, ← h₂]
      exact hab
    · rw [if_neg h₁] at hab
      rw [if_neg h₂] at hbc
      simp only [decide_eq_true_eq] at hab hbc
      have hac : a.2 ≠ c.2 := by omega
      rw [if_neg hac]
      simp only [decide_eq_true_eq]
      omega

/-- `ORDER BY ts ASC` as a relation on `ts` values. -/
def StrLeP : String → String → Prop := fun a b => strLe a b = true

instance : DecidableRel StrLeP :=
  fun a b => inferInstanceAs (Decidable (strLe a b = true))

instance : IsTotal String StrLeP where
  total a b := strLe_total a b

instance : IsTrans String StrLeP where
  trans _ _ _ hab hbc := strLe_trans hab hbc

/-- `ORDER BY ts DESC` as a relation on `ts` values. -/
def StrGeP : String → String → Prop := fun a b => strLe b a = true

instance : DecidableRel StrGeP :=
  fun a b => inferInstanceAs (Decidable (strLe b a = true))

instance : IsTotal String StrGeP where
  total a b := (strLe_total b a).symm.imp id id |>.symm

instance : IsTrans String StrGeP where
  trans _ _ _ hab hbc := strLe_trans hbc hab

/-- The response of `GET /stats`. -/
structure StatsOut where
  total_messages : Nat
  senders_count : Nat
  messages_per_sender : List (String × Nat)
  first_message_ts : Option String
  last_message_ts : Option String
deriving DecidableEq, Repr

/-- Embeds the `stats` handler.

* `total_messages` is `SELECT COUNT(*)`.
* `senders_count` is `SELECT COUNT(DISTINCT from_msisdn)`.
* `messages_per_sender` is
  `GROUP BY from_msisdn ORDER BY count DESC LIMIT 10`: one
  `(sender, count)` pair per distinct sender, sorted by `scLe`, first 10.
* `first_message_ts` / `last_message_ts` are
  `SELECT ts ... ORDER BY ts ASC|DESC LIMIT 1`: the head of the
  ascending / descending sort of the `ts` column (`None` when no row,
  matching `fetchone()` returning `None` on an empty table). -/
def stats (store : List Row) : StatsOut :=
  ⟨store.length,
   ((store.map (·.from_msisdn)).dedup).length,
   (List.insertionSort ScLeP
     (((store.map (·.from_msisdn)).dedup).map
       (fun s => (s, store.countP (fun r => r.from_msisdn == s))))).take 10,
   (List.insertionSort StrLeP (store.map (·.ts))).head?,
   (List.insertionSort StrGeP (store.map (·.ts))).head?⟩

/-- `a` is `≤` (BINARY collation) every element of `l`. -/
def isLowerBound (a : String) (l : List String) : Bool := l.all (fun t => strLe a t)

/-- `b` is `≥` (BINARY collation) every element of `l`. -/
def isUpperBound (b : String) (l : List String) : Bool := l.all (fun t => strLe t b)

/-! ## Spec-side definitions

These follow the specification's words (not the source), for comparison
with the embedded source behaviour. -/

/-- Spec-side: the regular expression `^\+[0-9]+$` from the spec's testable
property — a `+` followed by one or more ASCII digits. -/
def spec_e164 (v : String) : Bool :=
  match v.data with
  | '+' :: rest => !rest.isEmpty && rest.all (fun c => '0' ≤ c && c ≤ '9')
  | _ => false

/-- `startsWithB q s`: `q` is a literal prefix of `s`. -/
def startsWithB : List Char → List Char → Bool
  | [], _ => true
  | _ :: _, [] => false
  | a :: as, b :: bs => a == b && startsWithB as bs

/-- `isSubstrB q s`: `q` occurs in `s` as a literal, case-sensitive
substring. -/
def isSubstrB (q : List Char) : List Char → Bool
  | [] => startsWithB q []
  | c :: s => startsWithB q (c :: s) || isSubstrB q s

/-- Spec-side: the claim reads the `q` filter of `GET /messages` as a
literal substring test on `text`. -/
def spec_q_substring (q : String) (text : Option String) : Bool :=
  match text with
  | none => false
  | some t => isSubstrB q.data t.data

/-! ## Claims -/

/-- C1: posting a valid payload `P` twice with the correct signature yields
`created` then `duplicate`; after the second delivery the store holds
exactly one row for `P.message_id` and is unchanged by the second delivery
(in particular the stored row is unchanged).  `mac` and `parse` are
arbitrary (the HMAC digest and JSON decoding are only consumed through
comparison resp. the decoded payload); a genuine HMAC-SHA256 hex digest is
a nonempty ASCII string, whence the two side conditions on
`mac secret body`. -/
theorem C1_twice_created_then_duplicate
    (mac : String → String → String) (parse : String → Option RawPayload)
    (secret body : String) (P : RawPayload) (now now' : String)
    (store store₁ store₂ : List Row) (resp₁ resp₂ : Resp)
    (hparse : parse body = some P) (hvalid : payload_valid P = true)
    (hne : mac secret body ≠ "") (hascii : pyAsciiStr (mac secret body) = true)
    (hfresh : store.countP (fun r => r.message_id == P.message_id) = 0)
    (h₁ : webhook mac parse secret (some (mac secret body)) body now store = (resp₁, store₁))
    (h₂ : webhook mac parse secret (some (mac secret body)) body now' store₁ = (resp₂, store₂)) :
    resp₁ = Resp.ok "created" ∧ resp₂ = Resp.ok "duplicate" ∧
    store₂.countP (fun r => r.message_id == P.message_id) = 1 ∧
    store₂ = store₁ := by
  have hany : store.any (fun r => r.message_id == P.message_id) = false := by
    rw [List.any_eq_false]
    intro r hr
    simpa using List.countP_eq_zero.mp hfresh r hr
  rw [webhook] at h₁ h₂
  simp only [if_neg hne, hascii, Bool.and_self, if_pos rfl, if_true, hparse, hvalid,
    if_pos rfl] at h₁ h₂
  rw [insert_message, hany] at h₁
  simp only [if_false, Bool.false_eq_true] at h₁
  obtain ⟨hr₁, hs₁⟩ := Prod.mk.injEq .. ▸ h₁
  rw [insert_message] at h₂
  have hmem : store₁.any (fun r => r.message_id == P.message_id) = true := by
    rw [List.any_eq_true]
    refine ⟨⟨P.message_id, P.from_, P.to_, P.ts, P.text, now⟩, ?_, by simp⟩
    rw [← hs₁]
    exact List.mem_append_right _ (List.mem_singleton_self _)
  rw [hmem] at h₂
  simp only [if_true] at h₂
  obtain ⟨hr₂, hs₂⟩ := Prod.mk.injEq .. ▸ h₂
  refine ⟨hr₁.symm, hr₂.symm, ?_, hs₂.symm⟩
  rw [← hs₂, ← hs₁, List.countP_append, hfresh]
  simp

/-- C1 witness: the spec's concrete scenario payload, posted twice into an
empty store. -/
theorem C1_twice_witness :
    Resp.ok "created" = Resp.ok "created" ∧ Resp.ok "duplicate" = Resp.ok "duplicate" ∧
    List.countP (fun r => r.message_id == "m1")
      [(⟨"m1", "+15551230000", "+15557654321", "2024-01-01T00:00:00Z", some "hi",
         "2025-01-01T00:00:00Z"⟩ : Row)] = 1 ∧
    [(⟨"m1", "+15551230000", "+15557654321", "2024-01-01T00:00:00Z", some "hi",
       "2025-01-01T00:00:00Z"⟩ : Row)] =
      [(⟨"m1", "+15551230000", "+15557654321", "2024-01-01T00:00:00Z", some "hi",
         "2025-01-01T00:00:00Z"⟩ : Row)] :=
  C1_twice_created_then_duplicate (fun _ _ => "ab") (fun _ =>
      some ⟨"m1", "+15551230000", "+15557654321", "2024-01-01T00:00:00Z", some "hi"⟩)
    "s3cr3t" "body" ⟨"m1", "+15551230000", "+15557654321", "2024-01-01T00:00:00Z", some "hi"⟩
    "2025-01-01T00:00:00Z" "2025-01-01T00:00:00Z" [] _ _ _ _
    rfl (by decide) (by decide) (by decide) rfl (by decide) (by decide)

/-- C2 (amended): a request whose `X-Signature` header is missing, or
whose value is an ASCII string different from the hex HMAC of the body,
receives the one 401 response `invalid signature` (missing and mismatched
are indistinguishable: the response value is literally the same), and the
store is never changed; a non-ASCII signature value instead makes
`hmac.compare_digest` raise `TypeError`, i.e. a 500 response, again with
the store unchanged.  This holds for every payload, valid or not
(`parse` is arbitrary). -/
theorem C2_bad_signature_rejected
    (mac : String → String → String) (parse : String → Option RawPayload)
    (secret body now : String) (sig : Option String) (store : List Row)
    (hmacA : pyAsciiStr (mac secret body) = true) :
    ((sig = none ∨ ∃ s, sig = some s ∧ pyAsciiStr s = true ∧ s ≠ mac secret body) →
      webhook mac parse secret sig body now store =
        (Resp.err 401 "invalid signature", store)) ∧
    (∀ s, sig = some s → pyAsciiStr s = false →
      webhook mac parse secret sig body now store =
        (Resp.err 500 "Internal Server Error", store)) := by
  constructor
  · rintro (rfl | ⟨s, rfl, hA, hne⟩)
    · rfl
    · rw [webhook]
      by_cases hse : s = ""
      · rw [if_pos hse]
      · rw [if_neg hse]
        simp only [hA, hmacA, Bool.and_self, if_true, if_neg hne]
  · rintro s rfl hA
    have hse : s ≠ "" := by
      intro h
      rw [h] at hA
      simp [pyAsciiStr] at hA
    rw [webhook, if_neg hse, hA]
    simp

/-- C2 witness: a present-but-wrong ASCII signature is answered exactly
like a missing one, and inserts nothing. -/
theorem C2_bad_signature_witness :
    webhook (fun _ _ => "ab") (fun _ => none) "s3cr3t" (some "zz") "body"
      "2025-01-01T00:00:00Z" [] = (Resp.err 401 "invalid signature", []) :=
  (C2_bad_signature_rejected (fun _ _ => "ab") (fun _ => none) "s3cr3t" "body"
      "2025-01-01T00:00:00Z" (some "zz") [] (by decide)).1
    (Or.inr ⟨"zz", rfl, by decide, by decide⟩)

/-- C2 counterexample to the claim as stated: the latin-1 header value
`"é"` is a signature that is present and different from the computed
digest (`"ab"` here), yet the response is a 500 from the `TypeError` of
`hmac.compare_digest`, not the claimed 401 — so "missing or mismatched
always yields 401 with detail `invalid signature`" fails (though no row is
inserted on this path either). -/
theorem C2_nonascii_signature_counterexample :
    ("é" : String) ≠ (fun _ _ => "ab" : String → String → String) "s3cr3t" "body" ∧
    webhook (fun _ _ => "ab") (fun _ => none) "s3cr3t" (some "é") "body"
        "2025-01-01T00:00:00Z" [] = (Resp.err 500 "Internal Server Error", []) ∧
    Resp.err 500 "Internal Server Error" ≠ Resp.err 401 "invalid signature" := by
  refine ⟨by decide, ?_, by decide⟩
  decide

/-- C5: divergence between the code and the claim (and the spec's
regular expression `^\+[0-9]+$`).  The validator uses Python's
`str.isdigit`, which also accepts non-ASCII Unicode digits such as the
Arabic-Indic zero `٠` (U+0660).  A correctly signed payload whose `from`
is `"+٠"` — which does **not** match `^\+[0-9]+$` — is therefore accepted:
the response is `200 {"status":"ok","result":"created"}` and a row is
inserted, where the claim requires a 422 and no insert. -/
theorem C5_nonascii_digit_accepted :
    spec_e164 "+٠" = false ∧ validate_e164 "+٠" = true ∧
    webhook (fun _ _ => "ab")
        (fun _ => some ⟨"m1", "+٠", "+15551230000", "2024-01-01T00:00:00Z", none⟩)
        "s3cr3t" (some "ab") "body" "2025-01-01T00:00:00Z" [] =
      (Resp.ok "created",
        [⟨"m1", "+٠", "+15551230000", "2024-01-01T00:00:00Z", none,
          "2025-01-01T00:00:00Z"⟩]) := by
  refine ⟨by decide, by decide, ?_⟩
  decide

/-- C8: a correctly signed payload whose `text` is longer than 4096
characters is rejected with a 422 validation failure and no row is
inserted; and every `text` that is absent or at most 4096 characters
passes the `validate_text` check. -/
theorem C8_text_too_long_rejected
    (mac : String → String → String) (parse : String → Option RawPayload)
    (secret body now : String) (store : List Row) (P : RawPayload)
    (hparse : parse body = some P) (hne : mac secret body ≠ "")
    (hascii : pyAsciiStr (mac secret body) = true)
    (hlong : ∃ t, P.text = some t ∧ 4096 < t.length) :
    webhook mac parse secret (some (mac secret body)) body now store =
      (Resp.err 422 "validation error", store) ∧
    (∀ v : Option String, (v = none ∨ ∃ t, v = some t ∧ t.length ≤ 4096) →
      validate_text v = true) := by
  constructor
  · obtain ⟨t, ht, hlen⟩ := hlong
    have hvt : validate_text P.text = false := by
      rw [ht, validate_text]
      simpa using hlen
    have hpv : payload_valid P = false := by
      rw [payload_valid, hvt]
      simp
    rw [webhook, if_neg hne]
    simp only [hascii, Bool.and_self, if_true, if_pos rfl, hparse, hpv]
    simp
  · rintro v (rfl | ⟨t, rfl, hlen⟩)
    · rfl
    · rw [validate_text]
      simpa using hlen

/-- C8 witness: a 4097-character `text` is rejected with a 422 and the
(empty) store stays empty. -/
theorem C8_text_too_long_witness :
    webhook (fun _ _ => "ab")
        (fun _ => some ⟨"m1", "+15551230000", "+15557654321", "2024-01-01T00:00:00Z",
          some (String.mk (List.replicate 4097 'a'))⟩)
        "s3cr3t" (some "ab") "body" "2025-01-01T00:00:00Z" [] =
      (Resp.err 422 "validation error", []) :=
  (C8_text_too_long_rejected (fun _ _ => "ab")
      (fun _ => some ⟨"m1", "+15551230000", "+15557654321", "2024-01-01T00:00:00Z",
        some (String.mk (List.replicate 4097 'a'))⟩)
      "s3cr3t" "body" "2025-01-01T00:00:00Z" []
      ⟨"m1", "+15551230000", "+15557654321", "2024-01-01T00:00:00Z",
        some (String.mk (List.replicate 4097 'a'))⟩
      rfl (by decide) (by decide)
      ⟨String.mk (List.replicate 4097 'a'), rfl, by
        show 4096 < (List.replicate 4097 'a').length
        rw [List.length_replicate]
        omega⟩).1

/-- Inversion for `get_messages`: a successful response is exactly the
filter / count / sort / paginate / project pipeline. -/
theorem get_messages_ok_eq {store : List Row} {limit offset : Int}
    {f s q : Option String} {resp : MessagesResponse}
    (h : get_messages store limit offset f s q = Except.ok resp) :
    resp = ⟨(((List.insertionSort RowLeP (store.filter (rowMatches f s q))).drop
        offset.toNat).take limit.toNat).map projRow,
      (store.filter (rowMatches f s q)).length, limit, offset⟩ := by
  rw [get_messages] at h
  split at h
  · exact absurd h (by simp)
  · injection h with h'
    exact h'.symm

/-- C3 (amended): the three `GET /messages` filters are conjunctive —
`from` exact equality on the sender, `since` an inclusive lexicographic
lower bound on `ts`, and `q` a sqlite `LIKE` match of `%q%` against
`text` (ASCII-case-insensitive, `%`/`_` in `q` act as wildcards, `NULL`
text never matches): every returned row satisfies every supplied filter in
this sense, and `total` counts exactly the stored rows satisfying them. -/
theorem C3_filters_conjunctive
    (store : List Row) (limit offset : Int) (from_ since q : Option String)
    (resp : MessagesResponse)
    (h : get_messages store limit offset from_ since q = Except.ok resp) :
    (∀ m ∈ resp.data, outMatches from_ since q m = true) ∧
    resp.total = store.countP (rowMatches from_ since q) := by
  have he := get_messages_ok_eq h
  subst he
  constructor
  · intro m hm
    simp only [List.mem_map] at hm
    obtain ⟨r, hr, rfl⟩ := hm
    have hr' : r ∈ store.filter (rowMatches from_ since q) :=
      (List.perm_insertionSort RowLeP _).subset
        (List.drop_subset _ _ (List.take_subset _ _ hr))
    exact (List.mem_filter.mp hr').2
  · simp [List.countP_eq_length_filter]

/-- C3 witness: a store whose single matching row is returned and counted
under all three filters at once. -/
theorem C3_filters_witness :
    (∀ m ∈ [(⟨"m1", "+15551230000", "+15557654321", "2024-01-01T00:00:00Z",
        some "hi"⟩ : MsgOut)],
      outMatches (some "+15551230000") (some "2024-01-01T00:00:00Z") (some "h") m = true) ∧
    1 = List.countP
      (rowMatches (some "+15551230000") (some "2024-01-01T00:00:00Z") (some "h"))
      [(⟨"m1", "+15551230000", "+15557654321", "2024-01-01T00:00:00Z", some "hi",
        "2025-01-01T00:00:00Z"⟩ : Row)] :=
  C3_filters_conjunctive
    [⟨"m1", "+15551230000", "+15557654321", "2024-01-01T00:00:00Z", some "hi",
      "2025-01-01T00:00:00Z"⟩]
    50 0 (some "+15551230000") (some "2024-01-01T00:00:00Z") (some "h")
    ⟨[⟨"m1", "+15551230000", "+15557654321", "2024-01-01T00:00:00Z", some "hi"⟩], 1, 50, 0⟩
    (by decide)

/-- C3 counterexample to the claim as stated: with `q = "a"` the row whose
`text` is `"A"` is returned (sqlite `LIKE` is ASCII-case-insensitive), yet
`"a"` is not a substring of `"A"` — so "a returned row satisfies every
supplied filter" fails for the literal substring reading of `q`. -/
theorem C3_substring_counterexample :
    get_messages
        [⟨"m1", "+15551230000", "+15557654321", "2024-01-01T00:00:00Z", some "A", "c"⟩]
        50 0 none none (some "a") =
      Except.ok ⟨[⟨"m1", "+15551230000", "+15557654321", "2024-01-01T00:00:00Z",
        some "A"⟩], 1, 50, 0⟩ ∧
    spec_q_substring "a" (some "A") = false := by
  refine ⟨?_, by decide⟩
  decide

/-- C4: for every store and every admissible pagination, the returned
`data` is sorted ascending by `(ts, message_id)`, and `total` equals the
number of stored rows matching the filters — hence is the same for every
choice of `limit` and `offset` with the same filters. -/
theorem C4_sorted_and_total_invariant
    (store : List Row) (limit offset limit' offset' : Int) (f s q : Option String)
    (resp resp' : MessagesResponse)
    (h : get_messages store limit offset f s q = Except.ok resp)
    (h' : get_messages store limit' offset' f s q = Except.ok resp') :
    List.Pairwise (fun a b => outLe a b = true) resp.data ∧
    resp.total = store.countP (rowMatches f s q) ∧
    resp.total = resp'.total := by
  have he := get_messages_ok_eq h
  have he' := get_messages_ok_eq h'
  subst he
  subst he'
  refine ⟨?_, by simp [List.countP_eq_length_filter], by simp⟩
  have hsorted : List.Sorted RowLeP
      (List.insertionSort RowLeP (store.filter (rowMatches f s q))) :=
    List.sorted_insertionSort RowLeP _
  have hpage : List.Pairwise RowLeP
      (((List.insertionSort RowLeP (store.filter (rowMatches f s q))).drop
        offset.toNat).take limit.toNat) :=
    List.Pairwise.sublist ((List.take_sublist _ _).trans (List.drop_sublist _ _)) hsorted
  rw [List.pairwise_map]
  exact hpage.imp (fun hab => hab)

/-- C4 witness: two rows inserted in descending `ts` order come back
ascending, and `total` is 2 under both paginations. -/
theorem C4_sorted_witness :
    List.Pairwise (fun a b => outLe a b = true)
      [(⟨"m1", "+1", "+2", "2024-01-01T00:00:00Z", some "x"⟩ : MsgOut),
       ⟨"m2", "+3", "+2", "2024-02-01T00:00:00Z", none⟩] ∧
    2 = List.countP (rowMatches none none none)
      [(⟨"m2", "+3", "+2", "2024-02-01T00:00:00Z", none, "c1"⟩ : Row),
       ⟨"m1", "+1", "+2", "2024-01-01T00:00:00Z", some "x", "c2"⟩] ∧
    2 = 2 :=
  C4_sorted_and_total_invariant
    [⟨"m2", "+3", "+2", "2024-02-01T00:00:00Z", none, "c1"⟩,
     ⟨"m1", "+1", "+2", "2024-01-01T00:00:00Z", some "x", "c2"⟩]
    50 0 1 1 none none none
    ⟨[⟨"m1", "+1", "+2", "2024-01-01T00:00:00Z", some "x"⟩,
      ⟨"m2", "+3", "+2", "2024-02-01T00:00:00Z", none⟩], 2, 50, 0⟩
    ⟨[⟨"m2", "+3", "+2", "2024-02-01T00:00:00Z", none⟩], 2, 1, 1⟩
    (by decide) (by decide)

/-- C9: `limit` outside `[1,100]` or a negative `offset` is rejected with
a validation error (never silently clamped); in-range values are echoed
unchanged in the response's `limit` and `offset` fields. -/
theorem C9_limit_offset_validation (store : List Row) (limit offset : Int) :
    ((limit < 1 ∨ 100 < limit ∨ offset < 0) →
      ∀ f s q, get_messages store limit offset f s q = Except.error "validation error") ∧
    (1 ≤ limit → limit ≤ 100 → 0 ≤ offset →
      ∀ f s q resp, get_messages store limit offset f s q = Except.ok resp →
        resp.limit = limit ∧ resp.offset = offset) := by
  constructor
  · intro hbad f s q
    rw [get_messages, if_pos hbad]
  · intro h1 h2 h3 f s q resp h
    have he := get_messages_ok_eq h
    subst he
    exact ⟨rfl, rfl⟩

/-- C9 witness: `limit = 0` is rejected; `limit = 50, offset = 0` are
echoed unchanged. -/
theorem C9_limit_offset_witness :
    get_messages [] 0 0 none none none = Except.error "validation error" ∧
    ((⟨[], 0, 50, 0⟩ : MessagesResponse).limit = 50 ∧
      (⟨[], 0, 50, 0⟩ : MessagesResponse).offset = 0) :=
  ⟨(C9_limit_offset_validation [] 0 0).1 (by omega) none none none,
   (C9_limit_offset_validation [] 50 0).2 (by omega) (by omega) (by omega)
     none none none ⟨[], 0, 50, 0⟩ (by decide)⟩

/-- C10: a filter parameter supplied as the empty string is treated
exactly like an absent one (`if from_:` is false for `""`), and with
`from=` empty (and no other filters) every stored row is counted. -/
theorem C10_empty_string_filters_ignored
    (store : List Row) (limit offset : Int) (f s q f' s' q' : Option String)
    (hf : f' = f ∨ (f' = some "" ∧ f = none))
    (hs : s' = s ∨ (s' = some "" ∧ s = none))
    (hq : q' = q ∨ (q' = some "" ∧ q = none)) :
    get_messages store limit offset f' s' q' = get_messages store limit offset f s q ∧
    (∀ resp, get_messages store limit offset (some "") none none = Except.ok resp →
      resp.total = store.length) := by
  have hoa : ∀ (a b : Option String),
      a = b ∨ (a = some "" ∧ b = none) → optActive a = optActive b := by
    rintro a b (rfl | ⟨rfl, rfl⟩)
    · rfl
    · simp [optActive]
  have hrm : rowMatches f' s' q' = rowMatches f s q := by
    funext r
    rw [rowMatches, rowMatches, hoa f' f hf, hoa s' s hs, hoa q' q hq]
  constructor
  · rw [get_messages, get_messages, hrm]
  · intro resp h
    have he := get_messages_ok_eq h
    subst he
    show (store.filter (rowMatches (some "") none none)).length = store.length
    have hall : store.filter (rowMatches (some "") none none) = store := by
      apply List.filter_eq_self.mpr
      intro r _
      simp [rowMatches, optActive]
    rw [hall]

/-- C10 witness: the empty-string filters return and count the whole
(one-row) store, identically to the absent filters. -/
theorem C10_empty_string_witness :
    get_messages
        [⟨"m1", "+15551230000", "+15557654321", "2024-01-01T00:00:00Z", some "hi", "c"⟩]
        50 0 (some "") (some "") (some "") =
      get_messages
        [⟨"m1", "+15551230000", "+15557654321", "2024-01-01T00:00:00Z", some "hi", "c"⟩]
        50 0 none none none ∧
    (1 : Nat) = 1 :=
  ⟨(C10_empty_string_filters_ignored
      [⟨"m1", "+15551230000", "+15557654321", "2024-01-01T00:00:00Z", some "hi", "c"⟩]
      50 0 none none none (some "") (some "") (some "")
      (Or.inr ⟨rfl, rfl⟩) (Or.inr ⟨rfl, rfl⟩) (Or.inr ⟨rfl, rfl⟩)).1,
   (C10_empty_string_filters_ignored
      [⟨"m1", "+15551230000", "+15557654321", "2024-01-01T00:00:00Z", some "hi", "c"⟩]
      50 0 none none none (some "") (some "") (some "")
      (Or.inr ⟨rfl, rfl⟩) (Or.inr ⟨rfl, rfl⟩) (Or.inr ⟨rfl, rfl⟩)).2
     ⟨[⟨"m1", "+15551230000", "+15557654321", "2024-01-01T00:00:00Z", some "hi"⟩], 1, 50, 0⟩
     (by decide)⟩

/-- C6: `messages_per_sender` lists at most 10 senders, is sorted by
count descending with ties broken deterministically by sender value
(sqlite leaves the tie order to the implementation; the embedding fixes
the deterministic ascending-sender order for ties, cf. `scLe`), and every
listed count is that sender's number of stored messages. -/
theorem C6_top_senders (store : List Row) :
    (stats store).messages_per_sender.length ≤ 10 ∧
    List.Pairwise
      (fun a b : String × Nat => b.2 < a.2 ∨ (a.2 = b.2 ∧ strLe a.1 b.1 = true))
      (stats store).messages_per_sender ∧
    (stats store).messages_per_sender.all
      (fun p => p.2 == store.countP (fun r => r.from_msisdn == p.1)) = true := by
  simp only [stats]
  refine ⟨List.length_take_le _ _, ?_, ?_⟩
  · have hs := List.sorted_insertionSort ScLeP
      (((store.map (·.from_msisdn)).dedup).map
        (fun s => (s, store.countP (fun r => r.from_msisdn == s))))
    have hp := List.Pairwise.sublist (List.take_sublist 10 _) hs
    refine hp.imp ?_
    intro a b hab
    unfold ScLeP scLe at hab
    by_cases h : a.2 = b.2
    · right
      exact ⟨h, by rwa [if_pos h] at hab⟩
    · left
      rw [if_neg h] at hab
      simpa using hab
  · rw [List.all_eq_true]
    intro p hp
    have hp' : p ∈ ((store.map (·.from_msisdn)).dedup).map
        (fun s => (s, store.countP (fun r => r.from_msisdn == s))) :=
      (List.perm_insertionSort ScLeP _).subset (List.take_subset _ _ hp)
    simp only [List.mem_map] at hp'
    obtain ⟨sdr, _, rfl⟩ := hp'
    simp

/-- C7: `first_message_ts` is the minimum and `last_message_ts` the
maximum stored `ts` (so first ≤ last) when the store is non-empty, and
both are `null` exactly when the store is empty. -/
theorem C7_first_last_ts (store : List Row) :
    ((stats store).first_message_ts = none ↔ store = []) ∧
    ((stats store).last_message_ts = none ↔ store = []) ∧
    (∀ a, (stats store).first_message_ts = some a →
      a ∈ store.map (·.ts) ∧ isLowerBound a (store.map (·.ts)) = true) ∧
    (∀ b, (stats store).last_message_ts = some b →
      b ∈ store.map (·.ts) ∧ isUpperBound b (store.map (·.ts)) = true) ∧
    (∀ a b, (stats store).first_message_ts = some a →
      (stats store).last_message_ts = some b → strLe a b = true) := by
  simp only [stats]
  have hpermA : List.Perm (List.insertionSort StrLeP (store.map (·.ts)))
      (store.map (·.ts)) :=
    List.perm_insertionSort _ _
  have hpermD : List.Perm (List.insertionSort StrGeP (store.map (·.ts)))
      (store.map (·.ts)) :=
    List.perm_insertionSort _ _
  have hmin : ∀ a, (List.insertionSort StrLeP (store.map (·.ts))).head? = some a →
      a ∈ store.map (·.ts) ∧ isLowerBound a (store.map (·.ts)) = true := by
    intro a ha
    cases hsa : List.insertionSort StrLeP (store.map (fun r : Row => r.ts)) with
    | nil => rw [hsa] at ha; simp at ha
    | cons x xs =>
      rw [hsa] at ha
      injection ha with ha'
      subst ha'
      have hsorted := List.sorted_insertionSort StrLeP (store.map (·.ts))
      rw [hsa] at hsorted
      constructor
      · exact hpermA.subset (by rw [hsa]; exact List.mem_cons_self x xs)
      · rw [isLowerBound, List.all_eq_true]
        intro t ht
        have ht' : t ∈ x :: xs := by rw [← hsa]; exact hpermA.mem_iff.mpr ht
        rcases List.mem_cons.mp ht' with rfl | htt
        · exact strLe_refl _
        · exact List.rel_of_sorted_cons hsorted t htt
  have hmax : ∀ b, (List.insertionSort StrGeP (store.map (·.ts))).head? = some b →
      b ∈ store.map (·.ts) ∧ isUpperBound b (store.map (·.ts)) = true := by
    intro b hb
    cases hsb : List.insertionSort StrGeP (store.map (fun r : Row => r.ts)) with
    | nil => rw [hsb] at hb; simp at hb
    | cons y ys =>
      rw [hsb] at hb
      injection hb with hb'
      subst hb'
      have hsorted := List.sorted_insertionSort StrGeP (store.map (·.ts))
      rw [hsb] at hsorted
      constructor
      · exact hpermD.subset (by rw [hsb]; exact List.mem_cons_self y ys)
      · rw [isUpperBound, List.all_eq_true]
        intro t ht
        have ht' : t ∈ y :: ys := by rw [← hsb]; exact hpermD.mem_iff.mpr ht
        rcases List.mem_cons.mp ht' with rfl | htt
        · exact strLe_refl _
        · exact List.rel_of_sorted_cons hsorted t htt
  refine ⟨?_, ?_, hmin, hmax, ?_⟩
  · rw [List.head?_eq_none_iff]
    constructor
    · intro h
      have h2 : store.map (·.ts) = [] := (List.Perm.nil_eq (h ▸ hpermA)).symm
      exact List.map_eq_nil_iff.mp h2
    · rintro rfl
      rfl
  · rw [List.head?_eq_none_iff]
    constructor
    · intro h
      have h2 : store.map (·.ts) = [] := (List.Perm.nil_eq (h ▸ hpermD)).symm
      exact List.map_eq_nil_iff.mp h2
    · rintro rfl
      rfl
  · intro a b ha hb
    have h1 := hmin a ha
    have h2 := hmax b hb
    have := List.all_eq_true.mp h2.2 a h1.1
    simpa using this

/-- C7 witness: a two-row store whose earliest and latest `ts` are
reported, with the earliest a lower bound of the column. -/
theorem C7_first_last_witness :
    ("2024-01-01T00:00:00Z" ∈
        List.map (·.ts)
          [(⟨"m2", "+3", "+2", "2024-02-01T00:00:00Z", none, "c1"⟩ : Row),
           ⟨"m1", "+1", "+2", "2024-01-01T00:00:00Z", some "x", "c2"⟩] ∧
      isLowerBound "2024-01-01T00:00:00Z"
        (List.map (·.ts)
          [(⟨"m2", "+3", "+2", "2024-02-01T00:00:00Z", none, "c1"⟩ : Row),
           ⟨"m1", "+1", "+2", "2024-01-01T00:00:00Z", some "x", "c2"⟩]) = true) ∧
    strLe "2024-01-01T00:00:00Z" "2024-02-01T00:00:00Z" = true :=
  ⟨(C7_first_last_ts
      [⟨"m2", "+3", "+2", "2024-02-01T00:00:00Z", none, "c1"⟩,
       ⟨"m1", "+1", "+2", "2024-01-01T00:00:00Z", some "x", "c2"⟩]).2.2.1
      "2024-01-01T00:00:00Z" (by decide),
   (C7_first_last_ts
      [⟨"m2", "+3", "+2", "2024-02-01T00:00:00Z", none, "c1"⟩,
       ⟨"m1", "+1", "+2", "2024-01-01T00:00:00Z", some "x", "c2"⟩]).2.2.2.2
      "2024-01-01T00:00:00Z" "2024-02-01T00:00:00Z" (by decide) (by decide)⟩

end Lyftr
